import Mathlib

/-!
Shallow embedding of `src/app_logic.js` from the WSearch repository: a
browser front end for a Wordle-style solver whose scoring and filtering
kernels live in a WebAssembly module.  The JS side owns the game state
machine (`handleSubmitFeedback`), the guess-selection policy
(`calculateBestGuess`, metric choice and tie-breaking), the pattern
encoding (`encodePattern`) and the word codec (`intVecToString`,
`stringToIntVec`).  The WASM kernels `cpp_calculate_scores_wasm` and
`cpp_filter_candidates_wasm` are not part of the repository source, so
they enter the model as function parameters: every theorem below is
quantified over them.

JS numbers holding scores are modelled as rationals (the selection logic
only compares them with exact `<`, `>`, `===`); machine integers read
from the WASM heap are modelled as `Int`; words are lists of characters.
-/

/-- Colors mapping used by the solver (`COLOR_MAP` in `app_logic.js`):
gray `_` -> 0, yellow `Y` -> 1, green `G` -> 2.  Any other character is
not in the JS object, and indexing yields `undefined`; this is modelled
by `Option`. -/
def COLOR_MAP (c : Char) : Option Nat :=
  if c = '_' then some 0
  else if c = 'Y' then some 1
  else if c = 'G' then some 2
  else none

/-- Base-3 positional weights used by `encodePattern`. -/
def patternWeights : List Nat := [1, 3, 9, 27, 81]

/-- Encodes the color pattern array (characters `_`, `Y`, `G`) into a
base-3 integer (0-242), as the loop in `encodePattern` of
`app_logic.js`.  Reading past the end of the array, or a character
outside the color map, yields `undefined` in JS and poisons the running
sum to `NaN`; both are modelled by `none`. -/
def encodePattern (fbArray : List Char) : Option Nat :=
  (List.range 5).foldl
    (fun acc i => do
      let p ← acc
      let c ← fbArray[i]?
      let v ← COLOR_MAP c
      pure (p + v * patternWeights.getD i 0))
    (some 0)

/-- Modelled from the spec: the `LETTERS` table is defined in
`wordle_solver_data.js`, which is not under `src/`; the spec's data
contract says the alphabet is exactly 26 symbols mapped to the integers
1-26, so `LETTERS` sends code `n` to the `n`-th uppercase letter
(`LETTERS 1 = 'A'`, ..., `LETTERS 26 = 'Z'`). -/
def LETTERS (n : Nat) : Char := Char.ofNat (64 + n)

/-- Converts a 5-integer array (1-26) back to a 5-character string
(`intVecToString` in `app_logic.js`). -/
def intVecToString (intArray : List Int) : List Char :=
  intArray.map (fun charInt => LETTERS charInt.toNat)

/-- Converts a 5-character string to a 5-integer array (1-26)
(`stringToIntVec` in `app_logic.js`): a loop of exactly five
`word.charCodeAt(i) - 'A'.charCodeAt(0) + 1` reads. -/
def stringToIntVec (word : List Char) : List Int :=
  (word.take 5).map (fun c => (c.toNat : Int) - 65 + 1)

/-- Reads five consecutive 32-bit entries of the flat word table
starting at element offset `startPos`, as the JS
`new Int32Array(Module.HEAP32.buffer, WASM_PTR.guessesFlat + startPos * 4, 5)`
views do (a byte offset of `4 * startPos` past the table base). -/
def readWordAt (flat : List Int) (startPos : Nat) : List Int :=
  (List.range 5).map (fun j => flat.getD (startPos + j) 0)

/-- Accumulator step of the best-score loop of `calculateBestGuess`
(`for (let i = 0; ...)` over the score array).  The accumulator pairs
the current `bestScore` (`none` models the initial `Infinity` /
`-Infinity`, which every finite score beats) with `bestIndices`.
`useMinimax` selects the comparison: `score < bestScore` for minimax,
`score > bestScore` for entropy; exact equality extends the tie list. -/
def bestStep (useMinimax : Bool) (scores : Nat → ℚ) :
    Option ℚ × List Nat → Nat → Option ℚ × List Nat
  | (none, _), i => (some (scores i), [i])
  | (some b, l), i =>
      if (if useMinimax then scores i < b else b < scores i) then
        (some (scores i), [i])
      else if scores i = b then (some b, l ++ [i])
      else (some b, l)

/-- The set of guess indices attaining the extremal primary score
(`bestIndices` after step 2 of `calculateBestGuess`), in increasing
index order, for a score vector over `nTotal` guesses. -/
def primaryBest (useMinimax : Bool) (scores : Nat → ℚ) (nTotal : Nat) : List Nat :=
  ((List.range nTotal).foldl (bestStep useMinimax scores) (none, [])).2

/-- Models `Math.max(...subsetScores)` on the (in context nonempty)
spread of tied entropy scores; the empty case, which JS maps to
`-Infinity`, is never reached under the `bestIndices.length > 1`
guard and is mapped to 0. -/
def mathMax : List ℚ → ℚ
  | [] => 0
  | x :: xs => xs.foldl max x

/-- Tie-breaker A of `calculateBestGuess`: only when the primary metric
was minimax and more than one index is tied, the entropy scores are
consulted and the tied list is restricted to the indices attaining the
maximum entropy among themselves (`subsetScores[idx] === maxEntropy`). -/
def tieBreakA (useMinimax : Bool) (entropyScores : Nat → ℚ) (tied : List Nat) : List Nat :=
  if 1 < tied.length ∧ useMinimax = true then
    let maxEntropy := mathMax (tied.map entropyScores)
    tied.filter (fun i => entropyScores i = maxEntropy)
  else tied

/-- Tie-breaker B of `calculateBestGuess`: if more than one index is
still tied, restrict to the indices flagged 1 in the possible-answer
mask, provided that restriction is nonempty (`answerIndices.length > 0`);
otherwise keep the tied list unchanged. -/
def tieBreakB (possibleAnswerMask : List Int) (tied : List Nat) : List Nat :=
  if 1 < tied.length then
    let answerIndices := tied.filter (fun i => possibleAnswerMask.getD i 0 = 1)
    if answerIndices.isEmpty then tied else answerIndices
  else tied

/-- Observable outcome of one `calculateBestGuess` call: the word
written to `STATE.currentGuessWord`, the `isMinimax` flags of the
`cpp_calculate_scores_wasm` invocations in order, and the
`finalGuessIndex` selected (none in the single-candidate short-circuit,
which selects no index). -/
structure CalcResult where
  guessWord : List Char
  kernelCalls : List Bool
  finalIndex : Option Nat
  deriving DecidableEq, Repr

/-- Model of `calculateBestGuess` in `app_logic.js`.  The WASM scoring
kernel `cpp_calculate_scores_wasm` is not part of the repository source
and enters as the parameter `scoreKernel`, mapping the `isMinimax` flag
and a guess index to that guess's score (scores depend on the candidate
buffer, which is fixed for the duration of one call).  With a single
candidate the word at flat start position `candidates[0]` is returned
directly with no kernel call; otherwise the primary metric is minimax
exactly when the candidate count is below 31, the extremal-score tie
set is computed, tie-breakers A and B are applied, and the word of the
first surviving index (`bestIndices[0]`, a word index scaled by 5) is
returned. -/
def calculateBestGuess (scoreKernel : Bool → Nat → ℚ) (guessesFlat : List Int)
    (possibleAnswerMask : List Int) (nTotal : Nat) (candidates : List Nat) : CalcResult :=
  if candidates.length = 1 then
    let startPos := candidates.headD 0
    { guessWord := intVecToString (readWordAt guessesFlat startPos)
      kernelCalls := []
      finalIndex := none }
  else
    let nCand := candidates.length
    let useMinimax := decide (nCand < 31)
    let tied1 := primaryBest useMinimax (scoreKernel useMinimax) nTotal
    let tied2 := tieBreakA useMinimax (scoreKernel false) tied1
    let tied3 := tieBreakB possibleAnswerMask tied2
    let finalGuessIndex := tied3.headD 0
    { guessWord := intVecToString (readWordAt guessesFlat (finalGuessIndex * 5))
      kernelCalls :=
        if 1 < tied1.length ∧ useMinimax = true then [useMinimax, false] else [useMinimax]
      finalIndex := tied3.head? }

/-- One observable WASM-kernel invocation made while handling a submit:
a `cpp_calculate_scores_wasm` call with its `isMinimax` flag, or a
`cpp_filter_candidates_wasm` call. -/
inductive CallEvent where
  | score (isMinimax : Bool)
  | filterCall
  deriving DecidableEq, Repr

/-- The mutable `STATE` object of `app_logic.js` (the UI-only
`feedbackState` is part of it because the submit handler branches on
it and overwrites it). -/
structure AppState where
  currentCandidates : List Nat
  currentGuessWord : List Char
  feedbackState : List Char
  history : List (List Char × List Char)
  gameOver : Bool
  isCalculating : Bool
  deriving DecidableEq, Repr

/-- Model of `handleSubmitFeedback` in `app_logic.js`, returning the
updated state together with the list of WASM-kernel calls it made.  The
WASM filtering kernel `cpp_filter_candidates_wasm` is not part of the
repository source and enters as the parameter `filterKernel` (guess
integer vector, encoded pattern, flat word table, old candidate list ->
new candidate list; its JS return value `remainingCount` is the length
of that list).  The `NaN` produced by encoding an invalid feedback
array coerces to 0 at the WASM `i32` boundary, hence `getD 0`.  The
three count branches follow the source: 0 -> error state, 1 -> solved
state reading the word at flat offset `finalWordIndex * 5`, otherwise
adopt the new candidate list and immediately recompute the best guess.
All branches return normally: the model is a total function, matching
the absence of any `throw` in the handler. -/
def handleSubmitFeedback (scoreKernel : Bool → Nat → ℚ)
    (filterKernel : List Int → Nat → List Int → List Nat → List Nat)
    (guessesFlat : List Int) (possibleAnswerMask : List Int) (nTotal : Nat)
    (st : AppState) : AppState × List CallEvent :=
  if st.gameOver || st.isCalculating then (st, [])
  else
    let st1 := { st with history := st.history ++ [(st.currentGuessWord, st.feedbackState)] }
    if st.feedbackState.all (fun c => c = 'G') then
      ({ st1 with gameOver := true }, [])
    else
      let patternInt := (encodePattern st.feedbackState).getD 0
      let guessIntVec := stringToIntVec st.currentGuessWord
      let newCandidates := filterKernel guessIntVec patternInt guessesFlat st.currentCandidates
      let remainingCount := newCandidates.length
      if remainingCount = 0 then
        ({ st1 with gameOver := true
                    currentGuessWord := ['E', 'R', 'R', 'O', 'R']
                    feedbackState := ['E', 'R', 'R', 'O', 'R'] },
         [CallEvent.filterCall])
      else if remainingCount = 1 then
        let finalWordIndex := newCandidates.headD 0
        let wordStartPos := finalWordIndex * 5
        ({ st1 with gameOver := true
                    currentGuessWord := intVecToString (readWordAt guessesFlat wordStartPos)
                    feedbackState := ['G', 'G', 'G', 'G', 'G'] },
         [CallEvent.filterCall])
      else
        let r := calculateBestGuess scoreKernel guessesFlat possibleAnswerMask nTotal newCandidates
        ({ st1 with currentCandidates := newCandidates
                    currentGuessWord := r.guessWord
                    isCalculating := false
                    feedbackState := ['_', '_', '_', '_', '_'] },
         CallEvent.filterCall :: r.kernelCalls.map CallEvent.score)

/-- The WASM memory buffers allocated by `initializeWasmMemory`,
modelled by their contents (pointers are opaque): read-only copies of
the flat guess table and the possible-answer mask, candidate buffer A
seeded with the initial candidate start positions, candidate buffer B
(allocated, uninitialized), the sizes of the score and guess-vector
scratch buffers, and the mirrored JS `STATE.currentCandidates`. -/
structure WasmMem where
  guessesFlat : List Int
  isPossibleAnswer : List Int
  candidatesA : List Nat
  candidatesB : List Nat
  scoresLen : Nat
  guessWordVecLen : Nat
  stateCandidates : List Nat
  deriving DecidableEq, Repr

/-- Model of `initializeWasmMemory` in `app_logic.js`.  The `Option`
codomain records the possibility of refusing to initialize; the source
function only allocates and copies, performs no validation of the
tables (no word-length check, no mask-length check) and has no failure
path, so the result is `some` for every input. -/
def initializeWasmMemory (allGuessesFlat : List Int) (isPossibleAnswerMask : List Int)
    (initialCandidateStartPositions : List Nat) (nTotal : Nat) : Option WasmMem :=
  some
    { guessesFlat := allGuessesFlat
      isPossibleAnswer := isPossibleAnswerMask
      candidatesA := initialCandidateStartPositions
      candidatesB := []
      scoresLen := nTotal
      guessWordVecLen := 5
      stateCandidates := initialCandidateStartPositions }

/-- The color character of one abstract feedback slot value:
0 = Absent (`_`), 1 = Present (`Y`), 2 = Correct (`G`). -/
def toColorChar : Fin 3 → Char := fun v => if v = 0 then '_' else if v = 1 then 'Y' else 'G'

/-- The pattern-code of an abstract 5-slot feedback pattern, obtained by
running `encodePattern` on its color characters (always defined, so the
`getD 0` never fires). -/
def encodeFun (f : Fin 5 → Fin 3) : Nat :=
  (encodePattern (List.ofFn (fun i => toColorChar (f i)))).getD 0

/-- Base-3 digit extraction inverting `encodeFun`. -/
def decodeFun (p : Nat) (i : Fin 5) : Fin 3 :=
  ⟨p / 3 ^ (i : Nat) % 3, Nat.mod_lt _ (by norm_num)⟩

/-- Concrete six-word flat guess table for witnesses and
counterexamples: word `k` (0-based, start position `5 * k`) is five
copies of letter code `k + 1`, i.e. AAAAA, BBBBB, ..., FFFFF. -/
def flat6 : List Int :=
  [1, 1, 1, 1, 1, 2, 2, 2, 2, 2, 3, 3, 3, 3, 3, 4, 4, 4, 4, 4, 5, 5, 5, 5, 5, 6, 6, 6, 6, 6]

/-- Concrete possible-answer mask for the six-word table. -/
def mask6 : List Int := [1, 0, 1, 0, 1, 0]

/-- Concrete scoring kernel assigning score 0 to every guess. -/
def zeroKernel : Bool → Nat → ℚ := fun _ _ => 0

/-- Concrete scoring kernel assigning each guess index its own value. -/
def indexKernel : Bool → Nat → ℚ := fun _ i => (i : ℚ)

/-- Concrete filtering kernel leaving exactly the entry 5 (the start
position of word BBBBB in `flat6`). -/
def filterToFive : List Int → Nat → List Int → List Nat → List Nat := fun _ _ _ _ => [5]

/-- Concrete filtering kernel leaving no candidate. -/
def filterToNone : List Int → Nat → List Int → List Nat → List Nat := fun _ _ _ _ => []

/-- Concrete filtering kernel leaving the two entries 0 and 5. -/
def filterToTwo : List Int → Nat → List Int → List Nat → List Nat := fun _ _ _ _ => [0, 5]

/-- Concrete active state: two candidates (start positions 0 and 5),
current guess AAAAA, all-gray feedback entered. -/
def st0 : AppState :=
  { currentCandidates := [0, 5]
    currentGuessWord := ['A', 'A', 'A', 'A', 'A']
    feedbackState := ['_', '_', '_', '_', '_']
    history := []
    gameOver := false
    isCalculating := false }

/-- Concrete active state with all-green feedback entered and two
candidates still present. -/
def stAllGreen : AppState :=
  { currentCandidates := [0, 5]
    currentGuessWord := ['B', 'B', 'B', 'B', 'B']
    feedbackState := ['G', 'G', 'G', 'G', 'G']
    history := []
    gameOver := false
    isCalculating := false }

example : encodePattern ['_', '_', '_', '_', '_'] = some 0 := by decide
example : encodePattern ['G', 'G', 'G', 'G', 'G'] = some 242 := by decide
example : encodePattern ['Y', '_', 'G', '_', '_'] = some (1 + 18) := by decide
example : encodePattern ['E', 'R', 'R', 'O', 'R'] = none := by decide
example : stringToIntVec ['A', 'B', 'C', 'D', 'Z'] = [1, 2, 3, 4, 26] := by decide
example : intVecToString [1, 2, 3, 4, 26] = ['A', 'B', 'C', 'D', 'Z'] := by decide
example : readWordAt [1, 1, 1, 1, 1, 2, 2, 2, 2, 2] 5 = [2, 2, 2, 2, 2] := by decide
example : primaryBest true (fun i => (i : ℚ)) 4 = [0] := by decide
example : primaryBest true (fun _ => (1 : ℚ)) 4 = [0, 1, 2, 3] := by decide
example : primaryBest false (fun i => (i : ℚ)) 4 = [3] := by decide
example :
    (calculateBestGuess (fun _ _ => (0 : ℚ))
      [1, 1, 1, 1, 1, 2, 2, 2, 2, 2] [1, 1] 2 [5]).guessWord
    = ['B', 'B', 'B', 'B', 'B'] := by decide
example :
    (calculateBestGuess (fun _ _ => (0 : ℚ))
      [1, 1, 1, 1, 1, 2, 2, 2, 2, 2] [0, 1] 2 [0, 5]).kernelCalls
    = [true, false] := by decide
example :
    (calculateBestGuess (fun _ _ => (0 : ℚ))
      [1, 1, 1, 1, 1, 2, 2, 2, 2, 2] [0, 1] 2 [0, 5]).finalIndex
    = some 1 := by decide

/-! ### Helper lemmas -/

/-- A left fold of `max` never drops below its initial value. -/
theorem foldl_max_init_le (l : List ℚ) : ∀ a : ℚ, a ≤ l.foldl max a := by
  induction l with
  | nil => intro a; exact le_refl a
  | cons x xs ih => intro a; exact le_trans (le_max_left a x) (ih (max a x))

/-- Every member of a list is bounded by a left fold of `max` over it. -/
theorem mem_le_foldl_max (l : List ℚ) (b : ℚ) (h : b ∈ l) : ∀ a : ℚ, b ≤ l.foldl max a := by
  induction l with
  | nil => cases h
  | cons x xs ih =>
    intro a
    rcases List.mem_cons.mp h with rfl | hm
    · exact le_trans (le_max_right a b) (foldl_max_init_le xs (max a b))
    · exact ih hm (max a x)

/-- A left fold of `max` is its initial value or a member of the list. -/
theorem foldl_max_mem (l : List ℚ) : ∀ a : ℚ, l.foldl max a = a ∨ l.foldl max a ∈ l := by
  induction l with
  | nil => intro a; exact Or.inl rfl
  | cons x xs ih =>
    intro a
    rcases ih (max a x) with h | h
    · rw [List.foldl_cons, h]
      rcases le_total a x with hax | hxa
      · exact Or.inr (by simp [max_eq_right hax])
      · exact Or.inl (max_eq_left hxa)
    · exact Or.inr (List.mem_cons_of_mem x h)

/-- Every member of a list is bounded by `mathMax` of the list. -/
theorem le_mathMax (l : List ℚ) (b : ℚ) (h : b ∈ l) : b ≤ mathMax l := by
  cases l with
  | nil => cases h
  | cons x xs =>
    rcases List.mem_cons.mp h with rfl | hm
    · exact foldl_max_init_le xs b
    · exact mem_le_foldl_max xs b hm x

/-- On a nonempty list, `mathMax` is attained by some member. -/
theorem mathMax_mem (l : List ℚ) (h : l ≠ []) : mathMax l ∈ l := by
  cases l with
  | nil => exact absurd rfl h
  | cons x xs =>
    rcases foldl_max_mem xs x with hx | hx
    · rw [mathMax, hx]; exact List.mem_cons_self x xs
    · exact List.mem_cons_of_mem x hx

/-- The best-score loop accumulates a strictly increasing index list,
all entries below the loop bound. -/
theorem bestStep_fold_bounded (useMM : Bool) (s : Nat → ℚ) :
    ∀ n, (((List.range n).foldl (bestStep useMM s) (none, [])).2.Pairwise (· < ·))
      ∧ (∀ j ∈ ((List.range n).foldl (bestStep useMM s) (none, [])).2, j < n) := by
  intro n
  induction n with
  | zero => exact ⟨List.Pairwise.nil, by intro j hj; cases hj⟩
  | succ n ih =>
    rw [List.range_succ, List.foldl_append, List.foldl_cons, List.foldl_nil]
    obtain ⟨hp, hb⟩ := ih
    set acc := (List.range n).foldl (bestStep useMM s) (none, []) with hacc
    obtain ⟨ob, l⟩ := acc
    cases ob with
    | none =>
      constructor
      · simp [bestStep]
      · intro j hj
        simp only [bestStep, List.mem_singleton] at hj
        omega
    | some b =>
      by_cases h1 : (if useMM then s n < b else b < s n)
      · constructor
        · simp [bestStep, h1]
        · intro j hj
          simp only [bestStep, h1, if_true, List.mem_singleton] at hj
          omega
      · by_cases h2 : s n = b
        · constructor
          · simp only [bestStep]
            rw [if_neg h1, if_pos h2]
            dsimp only
            rw [List.pairwise_append]
            exact ⟨hp, List.pairwise_singleton _ _, by
              intro a ha b' hb'
              simp only [List.mem_singleton] at hb'
              subst hb'
              exact hb a ha⟩
          · intro j hj
            simp only [bestStep] at hj
            rw [if_neg h1, if_pos h2] at hj
            dsimp only at hj
            rw [List.mem_append, List.mem_singleton] at hj
            rcases hj with hj | rfl
            · exact Nat.lt_succ_of_lt (hb j hj)
            · exact Nat.lt_succ_self j
        · constructor
          · simpa [bestStep, h1, h2] using hp
          · intro j hj
            simp only [bestStep, h1, if_false, h2] at hj
            exact Nat.lt_succ_of_lt (hb j hj)

/-- The primary tie set is listed in strictly increasing index order. -/
theorem primaryBest_pairwise (useMM : Bool) (s : Nat → ℚ) (n : Nat) :
    (primaryBest useMM s n).Pairwise (· < ·) :=
  (bestStep_fold_bounded useMM s n).1

/-- Tie-breaker A returns a sublist of its tied input. -/
theorem tieBreakA_sublist (useMM : Bool) (e : Nat → ℚ) (tied : List Nat) :
    (tieBreakA useMM e tied).Sublist tied := by
  unfold tieBreakA
  split
  · exact List.filter_sublist tied
  · exact List.Sublist.refl tied

/-- Tie-breaker B returns a sublist of its tied input. -/
theorem tieBreakB_sublist (mask : List Int) (tied : List Nat) :
    (tieBreakB mask tied).Sublist tied := by
  unfold tieBreakB
  split
  · show (if (tied.filter (fun i => mask.getD i 0 = 1)).isEmpty = true then tied
        else tied.filter (fun i => mask.getD i 0 = 1)).Sublist tied
    split
    · exact List.Sublist.refl tied
    · exact List.filter_sublist tied
  · exact List.Sublist.refl tied

/-- In a strictly increasing list, the head bounds every member. -/
theorem head_le_of_pairwise (l : List Nat) (hp : l.Pairwise (· < ·))
    (j : Nat) (hj : j ∈ l) (i : Nat) (hi : l.head? = some i) : i ≤ j := by
  cases l with
  | nil => cases hj
  | cons a t =>
    have hia : i = a := by simpa using hi.symm
    subst hia
    rcases List.mem_cons.mp hj with rfl | hm
    · exact le_refl j
    · exact le_of_lt (List.rel_of_pairwise_cons hp hm)

/-- Whenever the candidate count is not 1, `calculateBestGuess` makes at
least one scoring-kernel call. -/
theorem kernelCalls_ne_nil (k : Bool → Nat → ℚ) (flat mask : List Int) (nTotal : Nat)
    (cands : List Nat) (h : cands.length ≠ 1) :
    (calculateBestGuess k flat mask nTotal cands).kernelCalls ≠ [] := by
  unfold calculateBestGuess
  rw [if_neg h]
  dsimp only
  split <;> simp

/-- Whenever the candidate count is not 1, the first scoring-kernel call
of `calculateBestGuess` carries the minimax flag exactly when the count
is below 31. -/
theorem kernelCalls_head (k : Bool → Nat → ℚ) (flat mask : List Int) (nTotal : Nat)
    (cands : List Nat) (h : cands.length ≠ 1) :
    (calculateBestGuess k flat mask nTotal cands).kernelCalls.head?
      = some (decide (cands.length < 31)) := by
  unfold calculateBestGuess
  rw [if_neg h]
  dsimp only
  split <;> rfl

/-- Pointwise-fixed maps leave a list unchanged. -/
theorem map_eq_self_of {α : Type} (l : List α) (f : α → α) (h : ∀ x ∈ l, f x = x) :
    l.map f = l := by
  induction l with
  | nil => rfl
  | cons a t ih =>
    rw [List.map_cons, h a (List.mem_cons_self a t),
      ih (fun x hx => h x (List.mem_cons_of_mem a hx))]

/-- Character codes of uppercase letters survive `Char.ofNat`. -/
theorem toNat_ofNat_letters (m : Nat) (h1 : 65 ≤ m) (h2 : m ≤ 90) :
    (Char.ofNat m).toNat = m := by
  interval_cases m <;> decide

/-- One character survives the string-to-ints-to-string round trip. -/
theorem letters_roundtrip_char (c : Char) (h1 : 65 ≤ c.toNat) (h2 : c.toNat ≤ 90) :
    LETTERS (((c.toNat : Int) - 65 + 1)).toNat = c := by
  have hx : (((c.toNat : Int) - 65 + 1)).toNat = c.toNat - 64 := by omega
  rw [hx]
  unfold LETTERS
  have hy : 64 + (c.toNat - 64) = c.toNat := by omega
  rw [hy, Char.ofNat_toNat]

/-- One integer entry survives the ints-to-string-to-ints round trip. -/
theorem intvec_roundtrip_entry (x : Int) (h1 : 1 ≤ x) (h2 : x ≤ 26) :
    ((LETTERS x.toNat).toNat : Int) - 65 + 1 = x := by
  unfold LETTERS
  have hv : (Char.ofNat (64 + x.toNat)).toNat = 64 + x.toNat :=
    toNat_ofNat_letters _ (by omega) (by omega)
  rw [hv]
  omega

set_option maxRecDepth 10000 in
/-- Base-3 digit extraction is a left inverse of the pattern encoding. -/
theorem decodeFun_encodeFun : ∀ f : Fin 5 → Fin 3, decodeFun (encodeFun f) = f := by decide

set_option maxRecDepth 10000 in
/-- The pattern encoding is a left inverse of digit extraction on
codes below 243. -/
theorem encodeFun_decodeFun : ∀ n, n < 243 → encodeFun (decodeFun n) = n := by decide

set_option maxRecDepth 10000 in
/-- Every encoded pattern is below 243. -/
theorem encodeFun_lt : ∀ f : Fin 5 → Fin 3, encodeFun f < 243 := by decide

/-! ### Claim theorems -/

/-- C4: for every candidate set with exactly one element, the best-guess
selection returns that single candidate's word directly (the word at the
candidate's flat start position) and does not invoke the score
computation over the guess table: the list of scoring-kernel calls is
empty, uniformly in the scoring kernel. -/
theorem c4_single_candidate_short_circuit (scoreKernel : Bool → Nat → ℚ)
    (guessesFlat possibleAnswerMask : List Int) (nTotal : Nat) (c : Nat) :
    calculateBestGuess scoreKernel guessesFlat possibleAnswerMask nTotal [c]
      = { guessWord := intVecToString (readWordAt guessesFlat c)
          kernelCalls := []
          finalIndex := none } := rfl

/-- C5: for every candidate set with at least 2 elements, the primary
scoring pass (the first scoring-kernel call) uses minimax exactly when
the candidate count is below 31 and entropy exactly when it is at least
31; the two regimes are mutually exclusive. -/
theorem c5_metric_choice (scoreKernel : Bool → Nat → ℚ) (guessesFlat possibleAnswerMask : List Int)
    (nTotal : Nat) (cands : List Nat) (h : 2 ≤ cands.length) :
    (calculateBestGuess scoreKernel guessesFlat possibleAnswerMask nTotal cands).kernelCalls.head?
        = some (decide (cands.length < 31))
    ∧ ((calculateBestGuess scoreKernel guessesFlat possibleAnswerMask nTotal
          cands).kernelCalls.head? = some true ↔ cands.length < 31)
    ∧ ((calculateBestGuess scoreKernel guessesFlat possibleAnswerMask nTotal
          cands).kernelCalls.head? = some false ↔ 31 ≤ cands.length) := by
  have hmain := kernelCalls_head scoreKernel guessesFlat possibleAnswerMask nTotal cands
    (by omega)
  refine ⟨hmain, ?_, ?_⟩
  · rw [hmain, Option.some_inj]
    simp only [decide_eq_true_eq]
  · rw [hmain, Option.some_inj]
    constructor
    · intro hh
      have := of_decide_eq_false hh
      omega
    · intro hh
      exact decide_eq_false (by omega)

/-- C5 witness: a concrete two-candidate set, for which the primary
scoring call carries the minimax flag. -/
theorem c5_metric_choice_witness :
    2 ≤ ([0, 5] : List Nat).length
    ∧ (calculateBestGuess zeroKernel flat6 mask6 6 [0, 5]).kernelCalls.head?
        = some (decide (([0, 5] : List Nat).length < 31)) :=
  ⟨by decide, (c5_metric_choice zeroKernel flat6 mask6 6 [0, 5] (by decide)).1⟩

/-- C2 counterexample: a malformed pair of tables — with `nTotal = 2`
declared words, the flat table has length 4 (so its entries cannot all
be 5-letter words) and the answer mask has length 1 ≠ 2 — on which
`initializeWasmMemory` nevertheless succeeds: the source function
contains no word-length or mask-length check and no `MalformedTable`
failure path, so the claim that initialization fails on such input is
false. -/
theorem c2_counterexample :
    ([1, 1, 1, 1] : List Int).length ≠ 5 * 2
    ∧ ([1] : List Int).length ≠ 2
    ∧ (initializeWasmMemory [1, 1, 1, 1] [1] [0] 2).isSome = true := by decide

/-- C2 amended: `initializeWasmMemory` performs no validation at all;
for every guess table, answer mask and initial candidate list (well
formed or not) it succeeds, returning the buffers with the tables
copied in and candidate buffer A seeded with the initial candidates. -/
theorem c2_initialization_never_fails (allGuessesFlat isPossibleAnswerMask : List Int)
    (initialCandidateStartPositions : List Nat) (nTotal : Nat) :
    initializeWasmMemory allGuessesFlat isPossibleAnswerMask
        initialCandidateStartPositions nTotal
      = some
          { guessesFlat := allGuessesFlat
            isPossibleAnswer := isPossibleAnswerMask
            candidatesA := initialCandidateStartPositions
            candidatesB := []
            scoresLen := nTotal
            guessWordVecLen := 5
            stateCandidates := initialCandidateStartPositions } := rfl

/-- C10: when the submitted feedback is all green, the submit handler
transitions directly to the terminal solved state (`gameOver := true`)
after recording the history entry, making no kernel call at all (the
candidate filter is not invoked) and leaving the candidate set, the
guess word and the feedback tiles unchanged — uniformly in the filter
kernel, hence even when the candidate set still has two or more
entries. -/
theorem c10_all_green_short_circuit (scoreKernel : Bool → Nat → ℚ)
    (filterKernel : List Int → Nat → List Int → List Nat → List Nat)
    (flat mask : List Int) (nTotal : Nat) (st : AppState)
    (hgo : st.gameOver = false) (hic : st.isCalculating = false)
    (hall : st.feedbackState.all (fun c => c = 'G') = true) :
    handleSubmitFeedback scoreKernel filterKernel flat mask nTotal st
      = ({ st with gameOver := true
                   history := st.history ++ [(st.currentGuessWord, st.feedbackState)] },
         []) := by
  unfold handleSubmitFeedback
  rw [hgo, hic]
  rw [if_neg (by simp), if_pos hall]

/-- C10 witness: a concrete all-green submit from a state that still
has two candidates. -/
theorem c10_all_green_short_circuit_witness :
    stAllGreen.gameOver = false
    ∧ stAllGreen.isCalculating = false
    ∧ stAllGreen.feedbackState.all (fun c => c = 'G') = true
    ∧ 2 ≤ stAllGreen.currentCandidates.length
    ∧ handleSubmitFeedback zeroKernel filterToFive flat6 mask6 6 stAllGreen
        = ({ stAllGreen with
              gameOver := true
              history := stAllGreen.history
                ++ [(stAllGreen.currentGuessWord, stAllGreen.feedbackState)] },
           []) :=
  ⟨rfl, rfl, by decide, by decide,
    c10_all_green_short_circuit zeroKernel filterToFive flat6 mask6 6 stAllGreen rfl rfl
      (by decide)⟩

/-- C1 (amended): on a submit from an active state (not game over, not
calculating) whose feedback is not all green, the handler applies the
candidate filter exactly once and branches on the resulting count, and
— being a total function — never raises an exception: count 0 moves to
the terminal failure state (`gameOver`, guess word `ERROR`); count 1
moves to a terminal solved state (`gameOver`, all-green tiles) whose
displayed word is read from the flat table at offset five times the
remaining entry value (the amendment: this is not the remaining entry's
own word, whose flat start position is the entry value itself); count
at least 2 keeps the game active (`gameOver` stays false) with the new
candidate set, and the next best guess is computed before the handler
returns: the returned guess word is `calculateBestGuess` of the new
set, whose scoring-kernel calls (at least one) all appear in this
submit's call log after the filter call. -/
theorem c1_submit_transitions (scoreKernel : Bool → Nat → ℚ)
    (filterKernel : List Int → Nat → List Int → List Nat → List Nat)
    (flat mask : List Int) (nTotal : Nat) (st : AppState)
    (hgo : st.gameOver = false) (hic : st.isCalculating = false)
    (hng : st.feedbackState.all (fun c => c = 'G') = false)
    (newCandidates : List Nat)
    (hnc : filterKernel (stringToIntVec st.currentGuessWord)
        ((encodePattern st.feedbackState).getD 0) flat st.currentCandidates
      = newCandidates) :
    (newCandidates.length = 0 →
      (handleSubmitFeedback scoreKernel filterKernel flat mask nTotal st).1.gameOver = true
      ∧ (handleSubmitFeedback scoreKernel filterKernel flat mask nTotal st).1.currentGuessWord
          = ['E', 'R', 'R', 'O', 'R']
      ∧ (handleSubmitFeedback scoreKernel filterKernel flat mask nTotal st).2
          = [CallEvent.filterCall])
    ∧ (newCandidates.length = 1 →
      (handleSubmitFeedback scoreKernel filterKernel flat mask nTotal st).1.gameOver = true
      ∧ (handleSubmitFeedback scoreKernel filterKernel flat mask nTotal st).1.feedbackState
          = ['G', 'G', 'G', 'G', 'G']
      ∧ (handleSubmitFeedback scoreKernel filterKernel flat mask nTotal st).1.currentGuessWord
          = intVecToString (readWordAt flat (newCandidates.headD 0 * 5))
      ∧ (handleSubmitFeedback scoreKernel filterKernel flat mask nTotal st).2
          = [CallEvent.filterCall])
    ∧ (2 ≤ newCandidates.length →
      (handleSubmitFeedback scoreKernel filterKernel flat mask nTotal st).1.gameOver = false
      ∧ (handleSubmitFeedback scoreKernel filterKernel flat mask nTotal st).1.currentCandidates
          = newCandidates
      ∧ (handleSubmitFeedback scoreKernel filterKernel flat mask nTotal st).1.currentGuessWord
          = (calculateBestGuess scoreKernel flat mask nTotal newCandidates).guessWord
      ∧ (handleSubmitFeedback scoreKernel filterKernel flat mask nTotal st).2
          = CallEvent.filterCall
            :: (calculateBestGuess scoreKernel flat mask nTotal
                newCandidates).kernelCalls.map CallEvent.score
      ∧ (calculateBestGuess scoreKernel flat mask nTotal newCandidates).kernelCalls ≠ []) := by
  have hsub :
      handleSubmitFeedback scoreKernel filterKernel flat mask nTotal st
        = (if newCandidates.length = 0 then
            ({ st with history := st.history ++ [(st.currentGuessWord, st.feedbackState)]
                       gameOver := true
                       currentGuessWord := ['E', 'R', 'R', 'O', 'R']
                       feedbackState := ['E', 'R', 'R', 'O', 'R'] },
             [CallEvent.filterCall])
          else if newCandidates.length = 1 then
            ({ st with history := st.history ++ [(st.currentGuessWord, st.feedbackState)]
                       gameOver := true
                       currentGuessWord :=
                         intVecToString (readWordAt flat (newCandidates.headD 0 * 5))
                       feedbackState := ['G', 'G', 'G', 'G', 'G'] },
             [CallEvent.filterCall])
          else
            ({ st with history := st.history ++ [(st.currentGuessWord, st.feedbackState)]
                       currentCandidates := newCandidates
                       currentGuessWord :=
                         (calculateBestGuess scoreKernel flat mask nTotal
                           newCandidates).guessWord
                       isCalculating := false
                       feedbackState := ['_', '_', '_', '_', '_'] },
             CallEvent.filterCall
               :: (calculateBestGuess scoreKernel flat mask nTotal
                   newCandidates).kernelCalls.map CallEvent.score)) := by
    unfold handleSubmitFeedback
    rw [hgo, hic]
    rw [if_neg (by simp), if_neg (by rw [hng]; simp)]
    dsimp only
    rw [hnc]
  refine ⟨?_, ?_, ?_⟩
  · intro h0
    rw [hsub, if_pos h0]
    exact ⟨rfl, rfl, rfl⟩
  · intro h1
    rw [hsub, if_neg (by omega), if_pos h1]
    exact ⟨rfl, rfl, rfl, rfl⟩
  · intro h2
    rw [hsub, if_neg (by omega), if_neg (by omega)]
    exact ⟨hgo, rfl, rfl, rfl,
      kernelCalls_ne_nil scoreKernel flat mask nTotal newCandidates (by omega)⟩

/-- C1 counterexample: a concrete submit from the active state `st0`
(guess AAAAA, feedback all gray) whose filter leaves exactly the entry
5 — per the source's own convention (`STATE.currentCandidates` holds
"start positions in ALL_GUESSES_FLAT", seeded from
`INITIAL_CANDIDATE_START_POSITIONS`), the single remaining word is the
one at flat start position 5, namely BBBBB.  The handler does reach the
terminal solved state, but the word it reports is the one at flat
offset 5 * 5 = 25 (FFFFF), not the single remaining word, refuting the
claim as stated. -/
theorem c1_solved_word_counterexample :
    filterToFive (stringToIntVec st0.currentGuessWord)
        ((encodePattern st0.feedbackState).getD 0) flat6 st0.currentCandidates = [5]
    ∧ st0.gameOver = false
    ∧ intVecToString (readWordAt flat6 5) = ['B', 'B', 'B', 'B', 'B']
    ∧ (handleSubmitFeedback zeroKernel filterToFive flat6 mask6 6 st0).1.gameOver = true
    ∧ (handleSubmitFeedback zeroKernel filterToFive flat6 mask6 6 st0).1.currentGuessWord
        = ['F', 'F', 'F', 'F', 'F']
    ∧ (handleSubmitFeedback zeroKernel filterToFive flat6 mask6 6 st0).1.currentGuessWord
        ≠ intVecToString (readWordAt flat6 5) := by
  decide

/-- C1 witness: the amended transition theorem applied to the concrete
state `st0` with a filter kernel that leaves no candidate: the game
moves to the terminal failure state with the ERROR word and exactly one
filter call (and no exception, the handler being total). -/
theorem c1_submit_transitions_witness :
    st0.gameOver = false
    ∧ st0.isCalculating = false
    ∧ st0.feedbackState.all (fun c => c = 'G') = false
    ∧ (([] : List Nat).length = 0 →
        (handleSubmitFeedback zeroKernel filterToNone flat6 mask6 6 st0).1.gameOver = true
        ∧ (handleSubmitFeedback zeroKernel filterToNone flat6 mask6 6 st0).1.currentGuessWord
            = ['E', 'R', 'R', 'O', 'R']
        ∧ (handleSubmitFeedback zeroKernel filterToNone flat6 mask6 6 st0).2
            = [CallEvent.filterCall]) :=
  ⟨rfl, rfl, by decide,
    ((c1_submit_transitions zeroKernel filterToNone flat6 mask6 6 st0 rfl rfl (by decide)
      [] rfl).1)⟩

/-- C3: the two readers of a candidate entry value disagree.  With the
six-word table `flat6` and the same entry value 5 — which, per the
source's comment on `STATE.currentCandidates` and the seeding from
`INITIAL_CANDIDATE_START_POSITIONS`, denotes the word at flat start
position 5 — the single-candidate short-circuit of `calculateBestGuess`
reads elements 5..9 (BBBBB) while the solved branch of
`handleSubmitFeedback` reads elements 25..29 (FFFFF): the two lookups
use inconsistent index conventions and denote different words. -/
theorem c3_index_convention_mismatch :
    (calculateBestGuess zeroKernel flat6 mask6 6 [5]).guessWord
        = intVecToString (readWordAt flat6 5)
    ∧ (handleSubmitFeedback zeroKernel filterToFive flat6 mask6 6 st0).1.currentGuessWord
        = intVecToString (readWordAt flat6 (5 * 5))
    ∧ (calculateBestGuess zeroKernel flat6 mask6 6 [5]).guessWord
        = ['B', 'B', 'B', 'B', 'B']
    ∧ (handleSubmitFeedback zeroKernel filterToFive flat6 mask6 6 st0).1.currentGuessWord
        = ['F', 'F', 'F', 'F', 'F']
    ∧ (calculateBestGuess zeroKernel flat6 mask6 6 [5]).guessWord
        ≠ (handleSubmitFeedback zeroKernel filterToFive flat6 mask6 6 st0).1.currentGuessWord := by
  decide

/-- C6: the entropy tie-break.  In `calculateBestGuess` on a candidate
set of size at least 2, the entropy score vector is recomputed (a second
scoring-kernel call, making the call count 2 instead of 1) exactly when
the primary metric was minimax (count below 31) and more than one index
attained the extremal primary score; and tie-breaker A, when it fires
(minimax primary, more than one tied index), keeps exactly the tied
indices attaining the maximum entropy among the tied set, while with an
entropy primary, or at most one tied index, it changes nothing. -/
theorem c6_entropy_tiebreak (scoreKernel : Bool → Nat → ℚ) (flat mask : List Int)
    (nTotal : Nat) (cands : List Nat) (e : Nat → ℚ) (tied : List Nat) (j : Nat)
    (h2 : 2 ≤ cands.length) :
    ((calculateBestGuess scoreKernel flat mask nTotal cands).kernelCalls.length = 2
      ↔ (cands.length < 31
          ∧ 1 < (primaryBest (decide (cands.length < 31))
              (scoreKernel (decide (cands.length < 31))) nTotal).length))
    ∧ ((calculateBestGuess scoreKernel flat mask nTotal cands).kernelCalls.length = 1
      ↔ ¬(cands.length < 31
          ∧ 1 < (primaryBest (decide (cands.length < 31))
              (scoreKernel (decide (cands.length < 31))) nTotal).length))
    ∧ (1 < tied.length →
        (j ∈ tieBreakA true e tied ↔ j ∈ tied ∧ ∀ i ∈ tied, e i ≤ e j))
    ∧ tieBreakA false e tied = tied
    ∧ (tied.length ≤ 1 → tieBreakA true e tied = tied) := by
  have hcalls :
      (calculateBestGuess scoreKernel flat mask nTotal cands).kernelCalls
        = (if 1 < (primaryBest (decide (cands.length < 31))
                (scoreKernel (decide (cands.length < 31))) nTotal).length
              ∧ decide (cands.length < 31) = true then
            [decide (cands.length < 31), false]
          else [decide (cands.length < 31)]) := by
    unfold calculateBestGuess
    rw [if_neg (by omega)]
  refine ⟨?_, ?_, ?_, ?_, ?_⟩
  · rw [hcalls]
    by_cases hc : 1 < (primaryBest (decide (cands.length < 31))
        (scoreKernel (decide (cands.length < 31))) nTotal).length
      ∧ decide (cands.length < 31) = true
    · rw [if_pos hc]
      simp only [List.length_cons, List.length_singleton]
      constructor
      · intro _
        exact ⟨of_decide_eq_true hc.2, hc.1⟩
      · intro _
        rfl
    · rw [if_neg hc]
      simp only [List.length_singleton]
      constructor
      · omega
      · intro hh
        exact absurd ⟨hh.2, decide_eq_true hh.1⟩ hc
  · rw [hcalls]
    by_cases hc : 1 < (primaryBest (decide (cands.length < 31))
        (scoreKernel (decide (cands.length < 31))) nTotal).length
      ∧ decide (cands.length < 31) = true
    · rw [if_pos hc]
      simp only [List.length_cons, List.length_singleton]
      constructor
      · omega
      · intro hh
        exact absurd ⟨of_decide_eq_true hc.2, hc.1⟩ hh
    · rw [if_neg hc]
      simp only [List.length_singleton]
      constructor
      · intro _ hh
        exact hc ⟨hh.2, decide_eq_true hh.1⟩
      · intro _
        trivial
  · intro hlen
    unfold tieBreakA
    rw [if_pos ⟨hlen, rfl⟩]
    dsimp only
    rw [List.mem_filter]
    constructor
    · rintro ⟨hj, hmax⟩
      rw [decide_eq_true_eq] at hmax
      refine ⟨hj, fun i hi => ?_⟩
      rw [hmax]
      exact le_mathMax _ _ (List.mem_map_of_mem e hi)
    · rintro ⟨hj, hge⟩
      refine ⟨hj, ?_⟩
      rw [decide_eq_true_eq]
      have hle : e j ≤ mathMax (tied.map e) :=
        le_mathMax _ _ (List.mem_map_of_mem e hj)
      have hmem : mathMax (tied.map e) ∈ tied.map e := by
        apply mathMax_mem
        intro hnil
        rw [List.map_eq_nil_iff] at hnil
        rw [hnil] at hlen
        simp at hlen
      obtain ⟨i0, hi0, he0⟩ := List.mem_map.mp hmem
      refine le_antisymm hle ?_
      rw [← he0]
      exact hge i0 hi0
  · unfold tieBreakA
    rw [if_neg (by simp)]
  · intro hlen
    unfold tieBreakA
    rw [if_neg (by omega)]

/-- C6 witness: a concrete two-candidate set on which the primary
minimax pass ties all six guesses, so the entropy vector is recomputed
(two kernel calls). -/
theorem c6_entropy_tiebreak_witness :
    2 ≤ ([0, 5] : List Nat).length
    ∧ ((calculateBestGuess zeroKernel flat6 mask6 6 [0, 5]).kernelCalls.length = 2
      ↔ (([0, 5] : List Nat).length < 31
          ∧ 1 < (primaryBest (decide (([0, 5] : List Nat).length < 31))
              (zeroKernel (decide (([0, 5] : List Nat).length < 31))) 6).length)) :=
  ⟨by decide,
    (c6_entropy_tiebreak zeroKernel flat6 mask6 6 [0, 5] (fun i => (i : ℚ)) [0, 3, 5] 5
      (by decide)).1⟩

/-- C7: the answer-mask tie-break and the final selection.  With at
least 2 candidates, writing `T2` for the tied set after the primary
pass and tie-breaker A and `T3` for the set after tie-breaker B: when
more than one index is still tied, `T3` is the restriction of `T2` to
mask-flagged indices if that restriction is nonempty and `T2` itself
otherwise (with at most one tied index, `T3 = T2`); the selected
`finalIndex` of `calculateBestGuess` is the head of `T3`, and it is the
smallest surviving index in guess-table order. -/
theorem c7_mask_tiebreak_first_index (scoreKernel : Bool → Nat → ℚ) (flat mask : List Int)
    (nTotal : Nat) (cands : List Nat) (T2 T3 : List Nat)
    (h2 : 2 ≤ cands.length)
    (hT2 : tieBreakA (decide (cands.length < 31)) (scoreKernel false)
        (primaryBest (decide (cands.length < 31))
          (scoreKernel (decide (cands.length < 31))) nTotal) = T2)
    (hT3 : tieBreakB mask T2 = T3) :
    (1 < T2.length → T2.filter (fun i => mask.getD i 0 = 1) ≠ [] →
        T3 = T2.filter (fun i => mask.getD i 0 = 1))
    ∧ (1 < T2.length → T2.filter (fun i => mask.getD i 0 = 1) = [] → T3 = T2)
    ∧ (T2.length ≤ 1 → T3 = T2)
    ∧ (calculateBestGuess scoreKernel flat mask nTotal cands).finalIndex = T3.head?
    ∧ (∀ j ∈ T3, ∀ i, T3.head? = some i → i ≤ j) := by
  have hp1 : (primaryBest (decide (cands.length < 31))
      (scoreKernel (decide (cands.length < 31))) nTotal).Pairwise (· < ·) :=
    primaryBest_pairwise _ _ _
  have hsub2 : T2.Sublist (primaryBest (decide (cands.length < 31))
      (scoreKernel (decide (cands.length < 31))) nTotal) := by
    rw [← hT2]
    exact tieBreakA_sublist _ _ _
  have hsub3 : T3.Sublist T2 := by
    rw [← hT3]
    exact tieBreakB_sublist _ _
  have hp3 : T3.Pairwise (· < ·) := hp1.sublist (hsub3.trans hsub2)
  refine ⟨?_, ?_, ?_, ?_, ?_⟩
  · intro hlen hne
    rw [← hT3]
    unfold tieBreakB
    rw [if_pos hlen]
    dsimp only
    rw [if_neg (by simpa using hne)]
  · intro hlen hemp
    rw [← hT3]
    unfold tieBreakB
    rw [if_pos hlen]
    dsimp only
    rw [if_pos (by simpa using hemp)]
  · intro hlen
    rw [← hT3]
    unfold tieBreakB
    rw [if_neg (by omega)]
  · unfold calculateBestGuess
    rw [if_neg (by omega)]
    dsimp only
    rw [hT2, hT3]
  · intro j hj i hi
    exact head_le_of_pairwise T3 hp3 j hj i hi

/-- C7 witness: a concrete two-candidate set on which all six guesses
tie through the primary pass and tie-breaker A, tie-breaker B restricts
to the mask-flagged indices 0, 2, 4, and the selected index is their
head 0, the smallest. -/
theorem c7_mask_tiebreak_first_index_witness :
    2 ≤ ([0, 5] : List Nat).length
    ∧ tieBreakA (decide (([0, 5] : List Nat).length < 31)) (zeroKernel false)
        (primaryBest (decide (([0, 5] : List Nat).length < 31))
          (zeroKernel (decide (([0, 5] : List Nat).length < 31))) 6)
        = [0, 1, 2, 3, 4, 5]
    ∧ tieBreakB mask6 [0, 1, 2, 3, 4, 5] = [0, 2, 4]
    ∧ (calculateBestGuess zeroKernel flat6 mask6 6 [0, 5]).finalIndex
        = ([0, 2, 4] : List Nat).head? :=
  ⟨by decide, by decide, by decide,
    (c7_mask_tiebreak_first_index zeroKernel flat6 mask6 6 [0, 5] [0, 1, 2, 3, 4, 5] [0, 2, 4]
      (by decide) (by decide) (by decide)).2.2.2.1⟩

/-- C8: the pattern encoding.  For any 5 slots, each a valid color
character (Absent `_`, Present `Y`, Correct `G`), `encodePattern`
returns exactly the sum of slot values weighted by the base-3 positional
weights 1, 3, 9, 27, 81; that sum is at most 242; and the encoding, as
a map from abstract 5-slot patterns (`Fin 5 → Fin 3`) to codes, is
injective, lands in [0, 242], and attains every code in [0, 242] — a
bijection between the 3^5 patterns and [0, 242]. -/
theorem c8_pattern_encoding (c0 c1 c2 c3 c4 : Char)
    (h0 : c0 = '_' ∨ c0 = 'Y' ∨ c0 = 'G') (h1 : c1 = '_' ∨ c1 = 'Y' ∨ c1 = 'G')
    (h2 : c2 = '_' ∨ c2 = 'Y' ∨ c2 = 'G') (h3 : c3 = '_' ∨ c3 = 'Y' ∨ c3 = 'G')
    (h4 : c4 = '_' ∨ c4 = 'Y' ∨ c4 = 'G') :
    encodePattern [c0, c1, c2, c3, c4]
        = some ((COLOR_MAP c0).getD 0 * 1 + (COLOR_MAP c1).getD 0 * 3
            + (COLOR_MAP c2).getD 0 * 9 + (COLOR_MAP c3).getD 0 * 27
            + (COLOR_MAP c4).getD 0 * 81)
    ∧ (COLOR_MAP c0).getD 0 * 1 + (COLOR_MAP c1).getD 0 * 3
        + (COLOR_MAP c2).getD 0 * 9 + (COLOR_MAP c3).getD 0 * 27
        + (COLOR_MAP c4).getD 0 * 81 ≤ 242
    ∧ Function.Injective encodeFun
    ∧ (∀ f : Fin 5 → Fin 3, encodeFun f ≤ 242)
    ∧ (∀ n : Nat, n ≤ 242 → ∃ f : Fin 5 → Fin 3, encodeFun f = n) := by
  have h12 : encodePattern [c0, c1, c2, c3, c4]
        = some ((COLOR_MAP c0).getD 0 * 1 + (COLOR_MAP c1).getD 0 * 3
            + (COLOR_MAP c2).getD 0 * 9 + (COLOR_MAP c3).getD 0 * 27
            + (COLOR_MAP c4).getD 0 * 81)
      ∧ (COLOR_MAP c0).getD 0 * 1 + (COLOR_MAP c1).getD 0 * 3
          + (COLOR_MAP c2).getD 0 * 9 + (COLOR_MAP c3).getD 0 * 27
          + (COLOR_MAP c4).getD 0 * 81 ≤ 242 := by
    rcases h0 with rfl | rfl | rfl <;> rcases h1 with rfl | rfl | rfl <;>
      rcases h2 with rfl | rfl | rfl <;> rcases h3 with rfl | rfl | rfl <;>
      rcases h4 with rfl | rfl | rfl <;> exact ⟨by decide, by decide⟩
  refine ⟨h12.1, h12.2, ?_, ?_, ?_⟩
  · exact Function.LeftInverse.injective decodeFun_encodeFun
  · intro f
    have := encodeFun_lt f
    omega
  · intro n hn
    exact ⟨decodeFun n, encodeFun_decodeFun n (by omega)⟩

/-- C8 witness: the concrete pattern gray-yellow-green-green-gray
encodes to the weighted sum 0 + 3 + 18 + 54 + 0. -/
theorem c8_pattern_encoding_witness :
    encodePattern ['_', 'Y', 'G', 'G', '_']
      = some ((COLOR_MAP '_').getD 0 * 1 + (COLOR_MAP 'Y').getD 0 * 3
          + (COLOR_MAP 'G').getD 0 * 9 + (COLOR_MAP 'G').getD 0 * 27
          + (COLOR_MAP '_').getD 0 * 81) :=
  (c8_pattern_encoding '_' 'Y' 'G' 'G' '_' (Or.inl rfl) (Or.inr (Or.inl rfl))
    (Or.inr (Or.inr rfl)) (Or.inr (Or.inr rfl)) (Or.inl rfl)).1

/-- C9: the word codec is bidirectional.  For every word of exactly 5
uppercase letter characters (codes 65-90), converting to its 5-integer
vector and back yields the original word; and for every 5-entry integer
vector with entries 1-26, converting to characters and back yields the
original vector. -/
theorem c9_word_codec_roundtrip (w : List Char) (v : List Int)
    (hw5 : w.length = 5) (hwUp : ∀ c ∈ w, 65 ≤ c.toNat ∧ c.toNat ≤ 90)
    (hv5 : v.length = 5) (hvR : ∀ x ∈ v, 1 ≤ x ∧ x ≤ 26) :
    intVecToString (stringToIntVec w) = w
    ∧ stringToIntVec (intVecToString v) = v := by
  constructor
  · unfold stringToIntVec
    rw [List.take_of_length_le (by omega)]
    unfold intVecToString
    rw [List.map_map]
    exact map_eq_self_of w _
      (fun c hc => letters_roundtrip_char c (hwUp c hc).1 (hwUp c hc).2)
  · unfold intVecToString
    unfold stringToIntVec
    rw [List.take_of_length_le (by simp [hv5])]
    rw [List.map_map]
    exact map_eq_self_of v _
      (fun x hx => intvec_roundtrip_entry x (hvR x hx).1 (hvR x hx).2)

/-- C9 witness: the concrete word HELLO and the integer vector of the
word SOARE each survive their round trip. -/
theorem c9_word_codec_roundtrip_witness :
    intVecToString (stringToIntVec ['H', 'E', 'L', 'L', 'O']) = ['H', 'E', 'L', 'L', 'O']
    ∧ stringToIntVec (intVecToString [19, 15, 1, 18, 5]) = [19, 15, 1, 18, 5] :=
  c9_word_codec_roundtrip ['H', 'E', 'L', 'L', 'O'] [19, 15, 1, 18, 5]
    (by decide) (by decide) (by decide) (by decide)
